import Mathlib

set_option linter.unusedVariables false
set_option linter.unnecessarySeqFocus false

/-!
Shallow embedding of the rust-runner step-execution engine
(src/schema.rs, src/template.rs, src/executor.rs, src/main.rs).

Modelling conventions:
* `HashMap<String, String>` is modelled as an association list `EnvMap`
  with `lookupEnv` returning the binding closest to the head; `insert`
  prepends, which is observationally the same as hash-map insertion
  (the newest binding for a key wins).
* The template renderer (`Renderer::render_str`, backed by tera, with the
  global context and the `ENV` namespace baked in) is modelled as an
  abstract fallible function `render : String → Except RErr String`
  carried by the `Executor` record, since `run_step` only composes it.
* Process spawning and OS I/O outcomes are provided by a `World` oracle;
  the filesystem is a map from path to content plus a map from path to
  permission bits.  Every observable action is recorded in an `Effect`
  trace so that frame claims (no spawn, no write, ...) are statable.
* Child stdout/stderr line streaming is not observable by any claim;
  only the exit status (which `stream_child` translates) is modelled.
-/

namespace RustRunner

/-- Template rendering errors (tera syntax error / missing variable). -/
inductive RErr where
  | err (msg : String)
deriving DecidableEq

/-- Errors surfaced by the executor (anyhow::Error shapes in the source). -/
inductive Err where
  | render (e : RErr)
  | noRunnableBlock (idx : Nat)
  | spawnFail (ctxMsg : String)
  | exitStatus (code : Nat)
  | backupCopy
  | ioErr (what : String)
  | invalidShell
deriving DecidableEq

/-- Association-list model of `HashMap<String, String>`. -/
abbrev EnvMap := List (String × String)

/-- Lookup: the binding nearest the head wins (models hash-map `get`). -/
def lookupEnv : EnvMap → String → Option String
  | [], _ => none
  | kv :: rest, k => if kv.1 = k then some kv.2 else lookupEnv rest k

/-- `HashMap::insert`: the new binding shadows any older one. -/
def insertEnv (m : EnvMap) (k v : String) : EnvMap := (k, v) :: m

/-- Observable actions of the executor, in program order. -/
inductive Effect where
  | printHeader (idx : Nat) (kind : String) (rendered : String)
  | printLine (s : String)
  | printErr (idx : Nat) (e : Err)
  | procSpawn (prog : String) (args : List String) (envMap : Option EnvMap)
      (cwd : Option String)
  | fsCopy (src dst : String)
  | fsWrite (path content : String)
  | fsSetPerm (path : String) (mode : Nat)
  | mkdirParent (dest : String)
deriving DecidableEq

/-- Rust `str::split_whitespace` on the character list (no empty tokens). -/
def splitWs : List Char → List Char → List String
  | [], cur => if cur.isEmpty then [] else [⟨cur.reverse⟩]
  | c :: rest, cur =>
    if c.isWhitespace then
      if cur.isEmpty then splitWs rest [] else ⟨cur.reverse⟩ :: splitWs rest []
    else splitWs rest (c :: cur)

def split_whitespace (s : String) : List String := splitWs s.data []

/-- Whitelist of `shell_escape::escape` (unix): characters that need no quoting. -/
def shellWhitelisted (c : Char) : Bool :=
  ('a' ≤ c && c ≤ 'z') || ('A' ≤ c && c ≤ 'Z') || ('0' ≤ c && c ≤ '9') ||
  c = '-' || c = '_' || c = '=' || c = '/' || c = ',' || c = '.' || c = '+'

def escapeChar (c : Char) : String :=
  if c = '\'' || c = '!' then "'\\" ++ c.toString ++ "'" else c.toString

/-- `shell_escape::escape` for unix: return unchanged when non-empty and
fully whitelisted, otherwise single-quote with `'`/`!` escaped. -/
def escape (s : String) : String :=
  if s ≠ "" ∧ s.data.all shellWhitelisted = true then s
  else "'" ++ String.join (s.data.map escapeChar) ++ "'"

def isOctalDigit (c : Char) : Bool := '0' ≤ c && c ≤ '7'

def octalVal (cs : List Char) : Nat :=
  cs.foldl (fun acc c => acc * 8 + (c.toNat - '0'.toNat)) 0

/-- Rust `u32::from_str_radix(s, 8)` as an `Option`: an optional leading
`+` (unsigned parsing admits no `-`; a `-` is an invalid digit), then at
least one octal digit, with overflow (≥ 2^32) failing. -/
def fromStrRadix8 (s : String) : Option Nat :=
  match s.data with
  | [] => none
  | c :: rest =>
    let digits := if c = '+' then rest else c :: rest
    if digits.isEmpty then none
    else if digits.all isOctalDigit then
      let v := octalVal digits
      if v < 4294967296 then some v else none
    else none

/-- `Renderer::render_map`: render every value, preserving keys; the list
order stands in for the (unspecified) hash-map iteration order. -/
def render_map (render : String → Except RErr String) : EnvMap → Except RErr EnvMap
  | [] => .ok []
  | (k, v) :: rest =>
    match render v with
    | .error e => .error e
    | .ok rv =>
      match render_map render rest with
      | .error e => .error e
      | .ok rs => .ok ((k, rv) :: rs)

/-- The override-insertion loops of `Executor::merge_env`: render each value
and insert it into the accumulator. -/
def insertAllRendered (render : String → Except RErr String) :
    EnvMap → EnvMap → Except RErr EnvMap
  | [], acc => .ok acc
  | (k, v) :: rest, acc =>
    match render v with
    | .error e => .error e
    | .ok rv => insertAllRendered render rest (insertEnv acc k rv)

/-- `Executor::merge_env`: start from the ambient process environment,
insert each rendered step-level override, then each rendered
operation-level override. -/
def merge_env (render : String → Except RErr String)
    (ambient step_env local_env : EnvMap) : Except RErr EnvMap :=
  match insertAllRendered render step_env ambient with
  | .error e => .error e
  | .ok env1 => insertAllRendered render local_env env1

/-- Render a list of templates in order, failing on the first error
(the `collect::<Result<Vec<_>>>` over exec args). -/
def render_list (render : String → Except RErr String) :
    List String → Except RErr (List String)
  | [] => .ok []
  | a :: rest =>
    match render a with
    | .error e => .error e
    | .ok ra =>
      match render_list render rest with
      | .error e => .error e
      | .ok rs => .ok (ra :: rs)

structure SshAuth where
  kind : String
  password : Option String
  key_path : Option String
  passphrase : Option String

structure SshSpec where
  host : String
  user : Option String
  auth : Option SshAuth
  command : String
  env : EnvMap
  check_host : Option String

structure ExecSpec where
  cmd : String
  args : List String
  env : EnvMap
  cwd : Option String

structure ShellSpec where
  command : String
  env : EnvMap
  cwd : Option String
  shell : Option String

structure ConfSpec where
  dest : String
  template : String
  backup : Bool
  mode : Option String

structure Step where
  name : Option String
  when : Option Bool
  timeout : Option Nat
  retry : Option Nat
  env : EnvMap
  exec : Option ExecSpec
  shell : Option ShellSpec
  ssh : Option SshSpec
  conf : Option ConfSpec

/-- The executor configuration: the renderer applied to the fixed global
context (modelled as one abstract fallible function) plus the CLI flags. -/
structure Executor where
  render : String → Except RErr String
  verbose : Bool
  dry_run : Bool

/-- Filesystem state: file contents and permission bits by path. -/
structure FS where
  files : String → Option String
  perms : String → Option Nat

/-- External-world oracle: ambient process environment, spawn outcomes
(`.error` = spawn failure, `.ok n` = exit status n), and I/O outcomes. -/
structure World where
  ambient : EnvMap
  spawn : String → List String → Except Unit Nat
  copyOk : Bool
  mkdirOk : Bool
  writeOk : Bool
  setPermOk : Bool

/-- `Executor::stream_child` outcome: a non-zero exit status becomes an
error carrying the status, zero is success. -/
def stream_child (status : Nat) : Except Err Unit :=
  if status = 0 then .ok () else .error (.exitStatus status)

/-- Spawn a child and wait for it (`Command::spawn` + `stream_child`).
`envMap = none` models a child spawned without an explicit environment
map, which therefore inherits the runner's ambient environment. -/
def spawn_stream (w : World) (ctxMsg : String) (prog : String)
    (args : List String) (envMap : Option EnvMap) (cwd : Option String) :
    Except Err Unit × List Effect :=
  match w.spawn prog args with
  | .error _ => (.error (.spawnFail ctxMsg), [.procSpawn prog args envMap cwd])
  | .ok status => (stream_child status, [.procSpawn prog args envMap cwd])

/-- `Executor::run_shell`. -/
def run_shell (ex : Executor) (w : World) (step : Step) (spec : ShellSpec)
    (idx : Nat) (fs : FS) : Except Err Unit × List Effect × FS :=
  match ex.render spec.command with
  | .error e => (.error (.render e), [], fs)
  | .ok cmd_str =>
    match split_whitespace (spec.shell.getD "bash -c") with
    | [] => (.error .invalidShell, [], fs)
    | prg :: args0 =>
      let args := args0 ++ [cmd_str]
      match merge_env ex.render w.ambient step.env spec.env with
      | .error e => (.error (.render e), [], fs)
      | .ok env =>
        let hdr := Effect.printHeader idx (step.name.getD "shell") cmd_str
        if ex.dry_run then (.ok (), [hdr], fs)
        else
          let r := spawn_stream w "shell spawn" prg args (some env)
            (some (spec.cwd.getD "."))
          (r.1, hdr :: r.2, fs)

/-- `Executor::run_exec`. -/
def run_exec (ex : Executor) (w : World) (step : Step) (spec : ExecSpec)
    (idx : Nat) (fs : FS) : Except Err Unit × List Effect × FS :=
  match ex.render spec.cmd with
  | .error e => (.error (.render e), [], fs)
  | .ok cmd =>
    match render_list ex.render spec.args with
    | .error e => (.error (.render e), [], fs)
    | .ok args =>
      match merge_env ex.render w.ambient step.env spec.env with
      | .error e => (.error (.render e), [], fs)
      | .ok env =>
        let line := cmd ++ " " ++ escape (String.intercalate " " args)
        let hdr := Effect.printHeader idx (step.name.getD "exec") line
        if ex.dry_run then (.ok (), [hdr], fs)
        else
          let r := spawn_stream w "exec spawn" cmd args (some env)
            (some (spec.cwd.getD "."))
          (r.1, hdr :: r.2, fs)

/-- The non-dry-run tail of `Executor::run_conf` after the backup step:
ensure the parent directory, write the content, apply the mode. -/
def conf_write (w : World) (spec : ConfSpec) (dest content : String) (fs : FS) :
    Except Err Unit × List Effect × FS :=
  if w.mkdirOk then
    if w.writeOk then
      let fs1 : FS :=
        { fs with files := fun p => if p = dest then some content else fs.files p }
      match spec.mode with
      | none => (.ok (), [.mkdirParent dest, .fsWrite dest content], fs1)
      | some m =>
        if w.setPermOk then
          let mv := (fromStrRadix8 m).getD 420
          (.ok (), [.mkdirParent dest, .fsWrite dest content, .fsSetPerm dest mv],
           { fs1 with perms := fun p => if p = dest then some mv else fs1.perms p })
        else (.error (.ioErr "set_permissions"),
          [.mkdirParent dest, .fsWrite dest content], fs1)
    else (.error (.ioErr "write"), [.mkdirParent dest], fs)
  else (.error (.ioErr "create_dir_all"), [], fs)

/-- `Executor::run_conf`. -/
def run_conf (ex : Executor) (w : World) (step : Step) (spec : ConfSpec)
    (idx : Nat) (fs : FS) : Except Err Unit × List Effect × FS :=
  match ex.render spec.dest with
  | .error e => (.error (.render e), [], fs)
  | .ok dest =>
    match ex.render spec.template with
    | .error e => (.error (.render e), [], fs)
    | .ok content =>
      let hdr := Effect.printHeader idx (step.name.getD "conf") ("write " ++ dest)
      if ex.dry_run then
        (.ok (), [hdr, .printLine ("Content preview:\n" ++ content)], fs)
      else if spec.backup && (fs.files dest).isSome then
        if w.copyOk then
          let bak := dest ++ ".bak"
          let fsb : FS :=
            { fs with files := fun p => if p = bak then fs.files dest else fs.files p }
          let r := conf_write w spec dest content fsb
          (r.1, hdr :: .fsCopy dest bak :: .printLine ("[conf] backup -> " ++ bak)
            :: r.2.1, r.2.2)
        else (.error .backupCopy, [hdr], fs)
      else
        let r := conf_write w spec dest content fs
        (r.1, hdr :: r.2.1, r.2.2)

/-- The identity-file arguments of `Executor::run_ssh` (lines 163-169):
`["-i", rendered key]` when an auth descriptor with kind `"key"` and a
populated key path is present, `[]` otherwise. -/
def build_key_args (render : String → Except RErr String) :
    Option SshAuth → Except RErr (List String)
  | some auth =>
    if auth.kind = "key" then
      match auth.key_path with
      | some k =>
        match render k with
        | .error e => .error e
        | .ok key => .ok ["-i", key]
      | none => .ok []
    else .ok []
  | none => .ok []

/-- The `ssh_cmd` vector built by `Executor::run_ssh` (lines 138-182):
program name, host-key policy flags, identity flag, target, and the
inline environment-export prefix concatenated with the remote command. -/
def build_ssh_cmd (render : String → Except RErr String) (spec : SshSpec) :
    Except RErr (List String) :=
  match render spec.host with
  | .error e => .error e
  | .ok host =>
    match (match spec.user with | some u => render u | none => .ok "root") with
    | .error e => .error e
    | .ok user =>
      match render spec.command with
      | .error e => .error e
      | .ok command =>
        match render_map render spec.env with
        | .error e => .error e
        | .ok env =>
          let hostFlags : List String :=
            match spec.check_host with
            | some "no" =>
              ["-o", "StrictHostKeyChecking=no", "-o", "UserKnownHostsFile=/dev/null"]
            | none =>
              ["-o", "StrictHostKeyChecking=no", "-o", "UserKnownHostsFile=/dev/null"]
            | _ => []
          match build_key_args render spec.auth with
          | .error e => .error e
          | .ok keyArgs =>
            let env_export :=
              if env.isEmpty then ""
              else
                String.intercalate " "
                  (env.map (fun kv => kv.1 ++ "=" ++ escape kv.2)) ++ " "
            .ok (["ssh"] ++ hostFlags ++ keyArgs ++
              [user ++ "@" ++ host, env_export ++ command])

/-- `Executor::run_ssh`: build the vector, print the header, and (unless
in preview mode) spawn the local ssh client without an explicit
environment map or working directory. -/
def run_ssh (ex : Executor) (w : World) (step : Step) (spec : SshSpec)
    (idx : Nat) (fs : FS) : Except Err Unit × List Effect × FS :=
  match build_ssh_cmd ex.render spec with
  | .error e => (.error (.render e), [], fs)
  | .ok ssh_cmd =>
    let line := String.intercalate " " ssh_cmd
    let hdr := Effect.printHeader idx (step.name.getD "ssh") line
    if ex.dry_run then (.ok (), [hdr], fs)
    else
      match ssh_cmd with
      | [] => (.error .invalidShell, [hdr], fs)
      | prog :: rest =>
        let r := spawn_stream w "ssh spawn" prog rest none none
        (r.1, hdr :: r.2, fs)

/-- `Executor::run_step`: guard check, then the if/else-if dispatch chain
over shell, exec, conf, ssh, else the no-runnable-block error. -/
def run_step (ex : Executor) (w : World) (step : Step) (idx : Nat) (fs : FS) :
    Except Err Unit × List Effect × FS :=
  match step.when with
  | some false => (.ok (), [], fs)
  | _ =>
    match step.shell with
    | some shell => run_shell ex w step shell idx fs
    | none =>
      match step.exec with
      | some exec => run_exec ex w step exec idx fs
      | none =>
        match step.conf with
        | some conf => run_conf ex w step conf idx fs
        | none =>
          match step.ssh with
          | some ssh => run_ssh ex w step ssh idx fs
          | none => (.error (.noRunnableBlock idx), [], fs)

/-- The step loop of `main`: run steps in order; on the first error print
the 1-based step index with the error to stderr and finish with exit
code 1; otherwise exit code 0. -/
def main_loop (ex : Executor) (w : World) :
    List Step → Nat → FS → Nat × List Effect × FS
  | [], _, fs => (0, [], fs)
  | s :: rest, idx, fs =>
    match run_step ex w s idx fs with
    | (.ok _, tr, fs') =>
      let r := main_loop ex w rest (idx + 1) fs'
      (r.1, tr ++ r.2.1, r.2.2)
    | (.error e, tr, fs') => (1, tr ++ [.printErr (idx + 1) e], fs')

/-- All steps of the list succeed when run in sequence from the given
index and filesystem. -/
def stepsOk (ex : Executor) (w : World) : List Step → Nat → FS → Prop
  | [], _, _ => True
  | s :: rest, idx, fs =>
    (run_step ex w s idx fs).1 = .ok ()
    ∧ stepsOk ex w rest (idx + 1) (run_step ex w s idx fs).2.2

/-- An effect that only prints (no filesystem mutation, no process). -/
def effIsPrint : Effect → Bool
  | .printHeader _ _ _ => true
  | .printLine _ => true
  | .printErr _ _ => true
  | _ => false

/-- Errors that can arise before any side effect: rendering, dispatch
configuration, or the shell-string split panic. -/
def prepErr : Err → Bool
  | .render _ => true
  | .noRunnableBlock _ => true
  | .invalidShell => true
  | _ => false

/-- A spawn effect carrying no explicit environment map and no working
directory (so the child inherits the runner's ambient environment). -/
def spawnInheritsEnv : Effect → Bool
  | .procSpawn _ _ envMap cwd => envMap.isNone && cwd.isNone
  | _ => true

/-! Concrete sample inputs used by witnesses and counterexamples. -/

def idRender : String → Except RErr String := fun s => .ok s

def failRender : String → Except RErr String := fun _ => .error (.err "template")

def w0 : World :=
  { ambient := [], spawn := fun _ _ => .ok 0,
    copyOk := true, mkdirOk := true, writeOk := true, setPermOk := true }

def fs0 : FS := { files := fun _ => none, perms := fun _ => none }

def dryExec : Executor := { render := idRender, verbose := false, dry_run := true }

def liveExec : Executor := { render := idRender, verbose := false, dry_run := false }

def dryFailExec : Executor :=
  { render := failRender, verbose := false, dry_run := true }

def step0 : Step :=
  { name := none, when := none, timeout := none, retry := none, env := [],
    exec := none, shell := none, ssh := none, conf := none }

/-- A step with both a shell and an exec specification populated. -/
def c1_step : Step :=
  { step0 with
    shell := some { command := "echo hi", env := [], cwd := none, shell := none },
    exec := some { cmd := "ls", args := [], env := [], cwd := none } }

/-- Claim C1, counterexample: a step with both the shell and the exec
specification populated does not fail with an error naming the step
index; the shell handler is silently selected and runs (the step
succeeds and the shell header is printed). -/
theorem run_step_multiple_specs_picks_shell :
    (run_step dryExec w0 c1_step 0 fs0).1 = .ok ()
    ∧ (run_step dryExec w0 c1_step 0 fs0).2.1
        = [Effect.printHeader 0 "shell" "echo hi"] :=
  ⟨rfl, rfl⟩

/-- Claim C1, amended: for a step whose guard is not false, if zero of the
four operation specifications are populated, dispatch fails with the
no-runnable-block error naming the step index; if at least one is
populated, the first populated one in the fixed order shell, exec, conf,
ssh is selected and its handler runs. -/
theorem run_step_dispatch (ex : Executor) (w : World) (step : Step) (idx : Nat)
    (fs : FS) (hw : step.when ≠ some false) :
    (step.shell = none → step.exec = none → step.conf = none → step.ssh = none →
      run_step ex w step idx fs = (.error (.noRunnableBlock idx), [], fs))
    ∧ (∀ s, step.shell = some s →
        run_step ex w step idx fs = run_shell ex w step s idx fs)
    ∧ (∀ s, step.shell = none → step.exec = some s →
        run_step ex w step idx fs = run_exec ex w step s idx fs)
    ∧ (∀ s, step.shell = none → step.exec = none → step.conf = some s →
        run_step ex w step idx fs = run_conf ex w step s idx fs)
    ∧ (∀ s, step.shell = none → step.exec = none → step.conf = none →
        step.ssh = some s →
        run_step ex w step idx fs = run_ssh ex w step s idx fs) := by
  rcases hwv : step.when with _ | b
  · refine ⟨?_, ?_, ?_, ?_, ?_⟩
    · intro h1 h2 h3 h4; simp [run_step, hwv, h1, h2, h3, h4]
    · intro s hs; simp [run_step, hwv, hs]
    · intro s h1 hs; simp [run_step, hwv, h1, hs]
    · intro s h1 h2 hs; simp [run_step, hwv, h1, h2, hs]
    · intro s h1 h2 h3 hs; simp [run_step, hwv, h1, h2, h3, hs]
  · cases b
    · exact absurd hwv hw
    · refine ⟨?_, ?_, ?_, ?_, ?_⟩
      · intro h1 h2 h3 h4; simp [run_step, hwv, h1, h2, h3, h4]
      · intro s hs; simp [run_step, hwv, hs]
      · intro s h1 hs; simp [run_step, hwv, h1, hs]
      · intro s h1 h2 hs; simp [run_step, hwv, h1, h2, hs]
      · intro s h1 h2 h3 hs; simp [run_step, hwv, h1, h2, h3, hs]

/-- Witness for the amended C1 at a concrete zero-populated step. -/
theorem run_step_dispatch_witness :
    run_step liveExec w0 step0 3 fs0 = (.error (.noRunnableBlock 3), [], fs0) :=
  (run_step_dispatch liveExec w0 step0 3 fs0 (by decide)).1 rfl rfl rfl rfl

/-- Claim C4: a step whose guard is false is skipped with success, no
effect, no filesystem change and no dependence on the renderer, and the
main loop proceeds with the next step. -/
theorem guard_false_skips (ex : Executor) (w : World) (step : Step) (idx : Nat)
    (fs : FS) (rest : List Step) (hw : step.when = some false) :
    run_step ex w step idx fs = (.ok (), [], fs)
    ∧ main_loop ex w (step :: rest) idx fs = main_loop ex w rest (idx + 1) fs := by
  have h1 : run_step ex w step idx fs = (.ok (), [], fs) := by
    simp [run_step, hw]
  refine ⟨h1, ?_⟩
  simp [main_loop, h1]

/-- A guarded-off shell step for the C4 witness. -/
def c4_step : Step :=
  { step0 with
    when := some false,
    shell := some { command := "x", env := [], cwd := none, shell := none } }

/-- Witness for C4 at a concrete guarded-off step. -/
theorem guard_false_skips_witness :
    run_step liveExec w0 c4_step 0 fs0 = (.ok (), [], fs0)
    ∧ main_loop liveExec w0 [c4_step] 0 fs0 = main_loop liveExec w0 [] 1 fs0 :=
  guard_false_skips liveExec w0 c4_step 0 fs0 [] rfl

/-- A guarded-off step with no populated operation, for C10. -/
def c10_step : Step := { step0 with when := some false }

/-- Claim C10: the guard check precedes the populated-operation check:
a step with guard false succeeds even with zero populated operation
specifications and never yields the no-runnable-block error. -/
theorem guard_precedes_dispatch (ex : Executor) (w : World) (step : Step)
    (idx : Nat) (fs : FS) (hw : step.when = some false)
    (h1 : step.shell = none) (h2 : step.exec = none) (h3 : step.conf = none)
    (h4 : step.ssh = none) :
    run_step ex w step idx fs = (.ok (), [], fs)
    ∧ ∀ i, (run_step ex w step idx fs).1 ≠ .error (.noRunnableBlock i) := by
  have h : run_step ex w step idx fs = (.ok (), [], fs) := by simp [run_step, hw]
  refine ⟨h, fun i => ?_⟩
  simp [h]

/-- Witness for C10 at a concrete guarded-off, zero-populated step. -/
theorem guard_precedes_dispatch_witness :
    run_step liveExec w0 c10_step 0 fs0 = (.ok (), [], fs0)
    ∧ ∀ i, (run_step liveExec w0 c10_step 0 fs0).1 ≠ .error (.noRunnableBlock i) :=
  guard_precedes_dispatch liveExec w0 c10_step 0 fs0 rfl rfl rfl rfl rfl

/-- Claim C8: all steps succeeding gives exit code 0; the first failing
step prints its 1-based index with the error, yields exit code 1, and no
later step runs (the loop result does not depend on the remaining
steps); stream_child turns a non-zero exit status into an error carrying
the status and a zero status into success. -/
theorem main_loop_spec (ex : Executor) (w : World) :
    (∀ steps idx fs, stepsOk ex w steps idx fs →
      (main_loop ex w steps idx fs).1 = 0)
    ∧ (∀ step rest idx fs e tr fs',
        run_step ex w step idx fs = (.error e, tr, fs') →
        main_loop ex w (step :: rest) idx fs
          = (1, tr ++ [.printErr (idx + 1) e], fs'))
    ∧ (∀ step rest idx fs tr fs',
        run_step ex w step idx fs = (.ok (), tr, fs') →
        main_loop ex w (step :: rest) idx fs
          = ((main_loop ex w rest (idx + 1) fs').1,
             tr ++ (main_loop ex w rest (idx + 1) fs').2.1,
             (main_loop ex w rest (idx + 1) fs').2.2))
    ∧ (∀ n, n ≠ 0 → stream_child n = .error (.exitStatus n))
    ∧ stream_child 0 = .ok () := by
  refine ⟨?_, ?_, ?_, ?_, rfl⟩
  · intro steps
    induction steps with
    | nil => intro idx fs h; rfl
    | cons s rest ih =>
      intro idx fs h
      obtain ⟨h1, h2⟩ := h
      rcases hr : run_step ex w s idx fs with ⟨r, tr, fs'⟩
      rw [hr] at h1 h2
      simp only at h1 h2
      subst h1
      simp [main_loop, hr]
      exact ih (idx + 1) fs' h2
  · intro step rest idx fs e tr fs' h
    simp [main_loop, h]
  · intro step rest idx fs tr fs' h
    simp [main_loop, h]
  · intro n hn
    simp [stream_child, hn]

/-- Witness for C8: a run whose single step fails exits 1 and prints the
step index with the error. -/
theorem main_loop_spec_witness :
    main_loop liveExec w0 [step0] 0 fs0
      = (1, [.printErr 1 (.noRunnableBlock 0)], fs0) :=
  (main_loop_spec liveExec w0).2.1 step0 [] 0 fs0 (.noRunnableBlock 0) [] fs0 rfl

/-- Claim C9: the ssh handler ignores the step-level env override mapping
entirely, and every process it spawns carries no explicit environment
map and no working directory, hence inherits the runner's ambient
process environment unchanged. -/
theorem run_ssh_ignores_step_env (ex : Executor) (w : World) (step : Step)
    (spec : SshSpec) (idx : Nat) (fs : FS) :
    (∀ e1 e2 : EnvMap,
      run_ssh ex w { step with env := e1 } spec idx fs
        = run_ssh ex w { step with env := e2 } spec idx fs)
    ∧ (run_ssh ex w step spec idx fs).2.1.all spawnInheritsEnv = true := by
  constructor
  · intro e1 e2; rfl
  · unfold run_ssh
    cases hb : build_ssh_cmd ex.render spec with
    | error e => simp
    | ok cmd =>
      cases hd : ex.dry_run with
      | true => simp [spawnInheritsEnv]
      | false =>
        cases cmd with
        | nil => simp [spawnInheritsEnv]
        | cons prog rest =>
          unfold spawn_stream
          cases hs : w.spawn prog rest with
          | error u => simp [hs, spawnInheritsEnv]
          | ok st => simp [hs, spawnInheritsEnv]

lemma lookupEnv_append (xs ys : EnvMap) (k : String) :
    lookupEnv (xs ++ ys) k =
      match lookupEnv xs k with
      | some v => some v
      | none => lookupEnv ys k := by
  induction xs with
  | nil => rfl
  | cons kv rest ih =>
    by_cases h : kv.1 = k
    · simp [lookupEnv, h]
    · simp [lookupEnv, h, ih]

lemma lookupEnv_eq_none (m : EnvMap) (k : String) :
    lookupEnv m k = none ↔ k ∉ m.map Prod.fst := by
  induction m with
  | nil => simp [lookupEnv]
  | cons kv rest ih =>
    by_cases h : kv.1 = k
    · simp [lookupEnv, h, eq_comm]
    · have h' : ¬(k = kv.1) := fun hh => h hh.symm
      simp [lookupEnv, h, ih, h']

lemma lookupEnv_reverse (m : EnvMap) (k : String)
    (h : (m.map Prod.fst).Nodup) : lookupEnv m.reverse k = lookupEnv m k := by
  induction m with
  | nil => rfl
  | cons kv rest ih =>
    simp only [List.map_cons, List.nodup_cons] at h
    obtain ⟨hnot, hrest⟩ := h
    rw [List.reverse_cons, lookupEnv_append, ih hrest]
    by_cases hk : kv.1 = k
    · subst hk
      have hn : lookupEnv rest kv.1 = none := (lookupEnv_eq_none rest kv.1).2 hnot
      simp [hn, lookupEnv]
    · cases hl : lookupEnv rest k with
      | some v => simp [hl, lookupEnv, hk]
      | none => simp [hl, lookupEnv, hk]

lemma render_map_keys (render : String → Except RErr String) :
    ∀ {src rs : EnvMap}, render_map render src = .ok rs →
      rs.map Prod.fst = src.map Prod.fst := by
  intro src
  induction src with
  | nil =>
    intro rs h
    simp only [render_map, Except.ok.injEq] at h
    subst h; rfl
  | cons kv rest ih =>
    intro rs h
    simp only [render_map] at h
    cases hr : render kv.2 with
    | error e => rw [hr] at h; cases h
    | ok rv =>
      rw [hr] at h
      cases hm : render_map render rest with
      | error e => rw [hm] at h; cases h
      | ok rs' =>
        rw [hm] at h
        simp only [Except.ok.injEq] at h
        subst h
        simp [ih hm]

lemma render_map_lookup (render : String → Except RErr String) :
    ∀ {src rs : EnvMap}, render_map render src = .ok rs →
      ∀ k v, lookupEnv src k = some v →
        ∃ rv, render v = .ok rv ∧ lookupEnv rs k = some rv := by
  intro src
  induction src with
  | nil => intro rs h k v hv; cases hv
  | cons kv rest ih =>
    intro rs h k v hv
    simp only [render_map] at h
    cases hr : render kv.2 with
    | error e => rw [hr] at h; cases h
    | ok rv0 =>
      rw [hr] at h
      cases hm : render_map render rest with
      | error e => rw [hm] at h; cases h
      | ok rs' =>
        rw [hm] at h
        simp only [Except.ok.injEq] at h
        subst h
        by_cases hk : kv.1 = k
        · subst hk
          simp only [lookupEnv, if_pos] at hv
          obtain rfl : kv.2 = v := Option.some.inj hv
          exact ⟨rv0, hr, by simp [lookupEnv]⟩
        · simp only [lookupEnv, if_neg hk] at hv
          refine (ih hm k v hv).imp fun rv hrv => ⟨hrv.1, ?_⟩
          simpa [lookupEnv, hk] using hrv.2

lemma render_map_vals (render : String → Except RErr String) :
    ∀ {src rs : EnvMap}, render_map render src = .ok rs →
      ∀ k v, (k, v) ∈ src → ∃ rv, render v = .ok rv := by
  intro src
  induction src with
  | nil => intro rs h k v hv; cases hv
  | cons kv rest ih =>
    intro rs h k v hv
    simp only [render_map] at h
    cases hr : render kv.2 with
    | error e => rw [hr] at h; cases h
    | ok rv0 =>
      rw [hr] at h
      cases hm : render_map render rest with
      | error e => rw [hm] at h; cases h
      | ok rs' =>
        rcases List.mem_cons.1 hv with heq | hmem
        · have hv2 : v = kv.2 := by rw [← heq]
          rw [hv2]
          exact ⟨rv0, hr⟩
        · exact ih hm k v hmem

lemma insertAll_eq (render : String → Except RErr String) :
    ∀ (src acc : EnvMap),
      insertAllRendered render src acc =
        match render_map render src with
        | .error e => .error e
        | .ok rs => .ok (rs.reverse ++ acc) := by
  intro src
  induction src with
  | nil => intro acc; rfl
  | cons kv rest ih =>
    intro acc
    cases hr : render kv.2 with
    | error e => simp [insertAllRendered, render_map, hr]
    | ok rv =>
      simp only [insertAllRendered, render_map, hr]
      rw [ih (insertEnv acc kv.1 rv)]
      cases hm : render_map render rest with
      | error e => simp [hm]
      | ok rs' => simp [hm, insertEnv, List.reverse_cons, List.append_assoc]

lemma merge_env_eq (render : String → Except RErr String)
    (ambient se le : EnvMap) :
    merge_env render ambient se le =
      match render_map render se, render_map render le with
      | .error e, _ => .error e
      | .ok _, .error e => .error e
      | .ok rse, .ok rle => .ok (rle.reverse ++ (rse.reverse ++ ambient)) := by
  cases hse : render_map render se with
  | error e => simp [merge_env, insertAll_eq, hse]
  | ok rse =>
    cases hle : render_map render le with
    | error e => simp [merge_env, insertAll_eq, hse, hle]
    | ok rle => simp [merge_env, insertAll_eq, hse, hle]

/-- Claim C2: the merged environment starts from the ambient process
environment, inserts each rendered step-level override, then each
rendered operation-level override; for any key the operation-level value
wins over the step-level value, which wins over the ambient value; and
the merge fails whenever any override value fails to render. -/
theorem merge_env_spec (render : String → Except RErr String)
    (ambient se le : EnvMap)
    (hse : (se.map Prod.fst).Nodup) (hle : (le.map Prod.fst).Nodup) :
    ((∃ k v e, ((k, v) ∈ se ∨ (k, v) ∈ le) ∧ render v = .error e) →
      ∃ e, merge_env render ambient se le = .error e)
    ∧ (∀ m, merge_env render ambient se le = .ok m → ∀ k,
        (∀ v, lookupEnv le k = some v →
          ∃ rv, render v = .ok rv ∧ lookupEnv m k = some rv)
        ∧ (lookupEnv le k = none → ∀ v, lookupEnv se k = some v →
          ∃ rv, render v = .ok rv ∧ lookupEnv m k = some rv)
        ∧ (lookupEnv le k = none → lookupEnv se k = none →
          lookupEnv m k = lookupEnv ambient k)) := by
  constructor
  · rintro ⟨k, v, e, hmem, hre⟩
    cases hres : merge_env render ambient se le with
    | error e' => exact ⟨e', rfl⟩
    | ok m =>
      exfalso
      rw [merge_env_eq] at hres
      cases hse2 : render_map render se with
      | error e2 => rw [hse2] at hres; cases hres
      | ok rse =>
        cases hle2 : render_map render le with
        | error e2 => rw [hse2, hle2] at hres; cases hres
        | ok rle =>
          rcases hmem with h | h
          · obtain ⟨rv, hrv⟩ := render_map_vals render hse2 k v h
            rw [hrv] at hre; cases hre
          · obtain ⟨rv, hrv⟩ := render_map_vals render hle2 k v h
            rw [hrv] at hre; cases hre
  · intro m hm k
    rw [merge_env_eq] at hm
    cases hse2 : render_map render se with
    | error e2 => rw [hse2] at hm; cases hm
    | ok rse =>
      cases hle2 : render_map render le with
      | error e2 => rw [hse2, hle2] at hm; cases hm
      | ok rle =>
        rw [hse2, hle2] at hm
        simp only [Except.ok.injEq] at hm
        subst hm
        have hkeyse : rse.map Prod.fst = se.map Prod.fst :=
          render_map_keys render hse2
        have hkeysle : rle.map Prod.fst = le.map Prod.fst :=
          render_map_keys render hle2
        have hnodse : (rse.map Prod.fst).Nodup := by rw [hkeyse]; exact hse
        have hnodle : (rle.map Prod.fst).Nodup := by rw [hkeysle]; exact hle
        refine ⟨?_, ?_, ?_⟩
        · intro v hv
          obtain ⟨rv, hrv, hlk⟩ := render_map_lookup render hle2 k v hv
          refine ⟨rv, hrv, ?_⟩
          rw [lookupEnv_append, lookupEnv_reverse rle k hnodle, hlk]
        · intro hnone v hv
          have hlen : lookupEnv rle k = none := by
            rw [lookupEnv_eq_none, hkeysle]
            exact (lookupEnv_eq_none le k).1 hnone
          have hlrev : lookupEnv rle.reverse k = none := by
            rw [lookupEnv_reverse rle k hnodle]; exact hlen
          obtain ⟨rv, hrv, hlk⟩ := render_map_lookup render hse2 k v hv
          refine ⟨rv, hrv, ?_⟩
          rw [lookupEnv_append, hlrev, lookupEnv_append,
            lookupEnv_reverse rse k hnodse, hlk]
        · intro h1 h2
          have hlen : lookupEnv rle.reverse k = none := by
            rw [lookupEnv_reverse rle k hnodle, lookupEnv_eq_none, hkeysle]
            exact (lookupEnv_eq_none le k).1 h1
          have hsen : lookupEnv rse.reverse k = none := by
            rw [lookupEnv_reverse rse k hnodse, lookupEnv_eq_none, hkeyse]
            exact (lookupEnv_eq_none se k).1 h2
          rw [lookupEnv_append, hlen, lookupEnv_append, hsen]

/-- The merged result of the C2 witness scenario. -/
def mergeResW : EnvMap := [("B", "4"), ("B", "3"), ("A", "2"), ("A", "1")]

/-- Witness for C2 at a concrete render function and concrete layers:
the operation-level value for key B wins. -/
theorem merge_env_spec_witness :
    ∃ rv, idRender "4" = .ok rv ∧ lookupEnv mergeResW "B" = some rv := by
  have h := merge_env_spec idRender [("A", "1")] [("A", "2"), ("B", "3")]
    [("B", "4")] (by decide) (by decide)
  exact (h.2 mergeResW rfl "B").1 "4" rfl

/-- Claim C5: structure of the built secure-shell argument vector:
program name, host-key policy flags by check_host, identity-file flag
for key auth, user@host target (user defaulting to root), and one final
argument of inline environment-export prefix plus the remote command. -/
theorem build_ssh_cmd_spec (render : String → Except RErr String)
    (spec : SshSpec) (host user command : String) (renv : EnvMap)
    (keyArgs : List String)
    (hh : render spec.host = .ok host)
    (hu : (match spec.user with | some u => render u | none => .ok "root")
      = .ok user)
    (hc : render spec.command = .ok command)
    (he : render_map render spec.env = .ok renv)
    (hk : build_key_args render spec.auth = .ok keyArgs) :
    ∃ hostFlags env_export,
      build_ssh_cmd render spec =
        .ok (["ssh"] ++ hostFlags ++ keyArgs ++
          [user ++ "@" ++ host, env_export ++ command])
      ∧ (spec.check_host = some "no" ∨ spec.check_host = none →
          hostFlags = ["-o", "StrictHostKeyChecking=no", "-o",
            "UserKnownHostsFile=/dev/null"])
      ∧ (spec.check_host = some "yes" ∨ spec.check_host = some "fingerprint" →
          hostFlags = [])
      ∧ (∀ a k, spec.auth = some a → a.kind = "key" → a.key_path = some k →
          ∃ key, render k = .ok key ∧ keyArgs = ["-i", key])
      ∧ (renv = [] → env_export = "")
      ∧ (renv ≠ [] → env_export =
          String.intercalate " "
            (renv.map (fun kv => kv.1 ++ "=" ++ escape kv.2)) ++ " ")
      ∧ (spec.user = none → user = "root") := by
  refine ⟨(match spec.check_host with
      | some "no" =>
        ["-o", "StrictHostKeyChecking=no", "-o", "UserKnownHostsFile=/dev/null"]
      | none =>
        ["-o", "StrictHostKeyChecking=no", "-o", "UserKnownHostsFile=/dev/null"]
      | _ => []),
    (if renv.isEmpty then ""
     else String.intercalate " "
       (renv.map (fun kv => kv.1 ++ "=" ++ escape kv.2)) ++ " "),
    ?_, ?_, ?_, ?_, ?_, ?_, ?_⟩
  · simp [build_ssh_cmd, hh, hu, hc, he, hk]
  · rintro (h | h) <;> rw [h] <;> try rfl
  · rintro (h | h) <;> rw [h] <;> try rfl
  · intro a k ha hkind hkp
    rw [ha] at hk
    simp only [build_key_args, hkind, hkp, if_pos] at hk
    cases hr : render k with
    | error e => rw [hr] at hk; cases hk
    | ok key =>
      rw [hr] at hk
      simp only [Except.ok.injEq] at hk
      exact ⟨key, rfl, hk.symm⟩
  · intro h; rw [h]; rfl
  · intro h
    cases renv with
    | nil => exact absurd rfl h
    | cons a t => rfl
  · intro h
    rw [h] at hu
    simpa using hu.symm

/-- A key-based auth descriptor for the C5 witness. -/
def sshAuthW : SshAuth :=
  { kind := "key", password := none, key_path := some "/id", passphrase := none }

/-- A concrete ssh specification exercising every clause of C5. -/
def sshSpecW : SshSpec :=
  { host := "h", user := some "u", auth := some sshAuthW, command := "c",
    env := [("K", "v x")], check_host := some "no" }

/-- Witness for C5 at a concrete render function and specification. -/
theorem build_ssh_cmd_spec_witness :
    ∃ hostFlags env_export,
      build_ssh_cmd idRender sshSpecW =
        .ok (["ssh"] ++ hostFlags ++ ["-i", "/id"] ++
          ["u" ++ "@" ++ "h", env_export ++ "c"]) := by
  obtain ⟨hf, ee, h1, _⟩ := build_ssh_cmd_spec idRender sshSpecW "h" "u" "c"
    [("K", "v x")] ["-i", "/id"] (by rfl) (by rfl) (by rfl) (by rfl) (by rfl)
  exact ⟨hf, ee, h1⟩

lemma append_bak_ne (s : String) : s ++ ".bak" ≠ s := by
  intro h
  have hd := congrArg (fun t => t.data.length) h
  simp [String.data_append] at hd

lemma conf_write_files (w : World) (spec : ConfSpec) (dest content : String)
    (fs : FS) (p : String) :
    ((conf_write w spec dest content fs).1 = .ok () →
      (conf_write w spec dest content fs).2.2.files p
        = if p = dest then some content else fs.files p)
    ∧ (p ≠ dest →
      (conf_write w spec dest content fs).2.2.files p = fs.files p) := by
  cases hmk : w.mkdirOk with
  | false => simp [conf_write, hmk]
  | true =>
    cases hwr : w.writeOk with
    | false => simp [conf_write, hmk, hwr]
    | true =>
      cases hmo : spec.mode with
      | none =>
        constructor
        · intro _; simp [conf_write, hmk, hwr, hmo]
        · intro hp; simp [conf_write, hmk, hwr, hmo, hp]
      | some m =>
        cases hsp : w.setPermOk with
        | false =>
          constructor
          · intro hok; simp [conf_write, hmk, hwr, hmo, hsp] at hok
          · intro hp; simp [conf_write, hmk, hwr, hmo, hsp, hp]
        | true =>
          constructor
          · intro _; simp [conf_write, hmk, hwr, hmo, hsp]
          · intro hp; simp [conf_write, hmk, hwr, hmo, hsp, hp]

lemma conf_write_perms (w : World) (spec : ConfSpec) (dest content : String)
    (fs : FS) (m : String) (hm : spec.mode = some m) :
    (conf_write w spec dest content fs).1 = .ok () →
    (conf_write w spec dest content fs).2.2.perms dest
      = some ((fromStrRadix8 m).getD 420) := by
  intro hok
  cases hmk : w.mkdirOk with
  | false => simp [conf_write, hmk] at hok
  | true =>
    cases hwr : w.writeOk with
    | false => simp [conf_write, hmk, hwr] at hok
    | true =>
      cases hsp : w.setPermOk with
      | false => simp [conf_write, hmk, hwr, hm, hsp] at hok
      | true => simp [conf_write, hmk, hwr, hm, hsp]

/-- Claim C6: conf backup semantics outside preview mode: with backup set
and an existing destination, a failing copy aborts with the filesystem
untouched (so nothing was written to the destination); a successful run
leaves the old bytes at dest.bak and the new content at dest; with
backup unset the backup path is never touched. -/
theorem run_conf_backup_spec (ex : Executor) (w : World) (step : Step)
    (spec : ConfSpec) (idx : Nat) (fs : FS) (dest content old : String)
    (hdry : ex.dry_run = false)
    (hd : ex.render spec.dest = .ok dest)
    (hc : ex.render spec.template = .ok content) :
    (spec.backup = true → fs.files dest = some old → w.copyOk = false →
      (run_conf ex w step spec idx fs).1 = .error .backupCopy
      ∧ (run_conf ex w step spec idx fs).2.2 = fs)
    ∧ (spec.backup = true → fs.files dest = some old →
      (run_conf ex w step spec idx fs).1 = .ok () →
      (run_conf ex w step spec idx fs).2.2.files (dest ++ ".bak") = some old
      ∧ (run_conf ex w step spec idx fs).2.2.files dest = some content)
    ∧ (spec.backup = false →
      (run_conf ex w step spec idx fs).2.2.files (dest ++ ".bak")
        = fs.files (dest ++ ".bak")) := by
  refine ⟨?_, ?_, ?_⟩
  · intro hb hex hcp
    simp [run_conf, hd, hc, hdry, hb, hex, hcp]
  · intro hb hex hok
    have hcond : (spec.backup && (fs.files dest).isSome) = true := by
      rw [hb, hex]; rfl
    simp only [run_conf, hd, hc, hdry, hcond, Bool.false_eq_true, if_false,
      if_true] at hok ⊢
    cases hcp : w.copyOk with
    | false => simp [hcp] at hok
    | true =>
      simp only [hcp, if_true] at hok ⊢
      refine ⟨?_, ?_⟩
      · rw [(conf_write_files w spec dest content _ (dest ++ ".bak")).2
          (append_bak_ne dest)]
        simp [hex]
      · rw [(conf_write_files w spec dest content _ dest).1 hok]
        simp
  · intro hb
    simp only [run_conf, hd, hc, hdry, hb]
    simp only [Bool.false_and, if_false]
    exact (conf_write_files w spec dest content fs (dest ++ ".bak")).2
      (append_bak_ne dest)

/-- A filesystem with an existing file at the conf destination. -/
def fsW : FS where
  files := fun p => if p = "/etc/x" then some "OLD" else none
  perms := fun _ => none

def confSpecW : ConfSpec :=
  { dest := "/etc/x", template := "NEW", backup := true, mode := none }

/-- Witness for C6: after a successful backup-enabled conf step, the
backup file holds the old bytes and the destination the new content. -/
theorem run_conf_backup_spec_witness :
    (run_conf liveExec w0 step0 confSpecW 0 fsW).2.2.files ("/etc/x" ++ ".bak")
      = some "OLD"
    ∧ (run_conf liveExec w0 step0 confSpecW 0 fsW).2.2.files "/etc/x"
      = some "NEW" :=
  (run_conf_backup_spec liveExec w0 step0 confSpecW 0 fsW "/etc/x" "NEW" "OLD"
    rfl rfl rfl).2.1 rfl rfl rfl

/-- Claim C7: outside preview mode a conf step with a mode string applies
the octal-parsed value (defaulting to 0o644 on parse failure) to the
destination file, and the string "600" parses to exactly 0o600. -/
theorem run_conf_mode_spec (ex : Executor) (w : World) (step : Step)
    (spec : ConfSpec) (idx : Nat) (fs : FS) (dest content m : String)
    (hdry : ex.dry_run = false)
    (hd : ex.render spec.dest = .ok dest)
    (hc : ex.render spec.template = .ok content)
    (hm : spec.mode = some m) :
    ((run_conf ex w step spec idx fs).1 = .ok () →
      (run_conf ex w step spec idx fs).2.2.perms dest
        = some ((fromStrRadix8 m).getD 0o644))
    ∧ fromStrRadix8 "600" = some 0o600 := by
  refine ⟨?_, by decide⟩
  intro hok
  simp only [run_conf, hd, hc, hdry, Bool.false_eq_true, if_false] at hok ⊢
  by_cases hb : (spec.backup && (fs.files dest).isSome) = true
  · simp only [hb, if_true] at hok ⊢
    cases hcp : w.copyOk with
    | false => simp [hcp] at hok
    | true =>
      simp only [hcp, if_true] at hok ⊢
      exact conf_write_perms w spec dest content _ m hm hok
  · rw [Bool.not_eq_true] at hb
    simp only [hb, Bool.false_eq_true, if_false] at hok ⊢
    exact conf_write_perms w spec dest content fs m hm hok

def confModeSpec : ConfSpec :=
  { dest := "/tmp/out.conf", template := "x", backup := false,
    mode := some "600" }

/-- Witness for C7: mode "600" yields permission bits exactly 0o600. -/
theorem run_conf_mode_spec_witness :
    (run_conf liveExec w0 step0 confModeSpec 0 fs0).2.2.perms "/tmp/out.conf"
      = some 0o600 :=
  (run_conf_mode_spec liveExec w0 step0 confModeSpec 0 fs0 "/tmp/out.conf" "x"
    "600" rfl rfl rfl rfl).1 rfl

lemma run_shell_dry (ex : Executor) (w : World) (step : Step) (spec : ShellSpec)
    (idx : Nat) (fs : FS) (hdry : ex.dry_run = true) :
    (run_shell ex w step spec idx fs).2.2 = fs
    ∧ (run_shell ex w step spec idx fs).2.1.all effIsPrint = true
    ∧ ((run_shell ex w step spec idx fs).1 = .ok () →
        ∃ i k s, Effect.printHeader i k s ∈ (run_shell ex w step spec idx fs).2.1)
    ∧ (∀ e, (run_shell ex w step spec idx fs).1 = .error e → prepErr e = true) := by
  unfold run_shell
  cases h1 : ex.render spec.command with
  | error e => simp [effIsPrint, prepErr]
  | ok cmd =>
    cases h2 : split_whitespace (spec.shell.getD "bash -c") with
    | nil => simp [effIsPrint, prepErr]
    | cons prg args0 =>
      cases h3 : merge_env ex.render w.ambient step.env spec.env with
      | error e => simp [effIsPrint, prepErr]
      | ok env => simp [hdry, effIsPrint, prepErr]

lemma run_exec_dry (ex : Executor) (w : World) (step : Step) (spec : ExecSpec)
    (idx : Nat) (fs : FS) (hdry : ex.dry_run = true) :
    (run_exec ex w step spec idx fs).2.2 = fs
    ∧ (run_exec ex w step spec idx fs).2.1.all effIsPrint = true
    ∧ ((run_exec ex w step spec idx fs).1 = .ok () →
        ∃ i k s, Effect.printHeader i k s ∈ (run_exec ex w step spec idx fs).2.1)
    ∧ (∀ e, (run_exec ex w step spec idx fs).1 = .error e → prepErr e = true) := by
  unfold run_exec
  cases h1 : ex.render spec.cmd with
  | error e => simp [effIsPrint, prepErr]
  | ok cmd =>
    cases h2 : render_list ex.render spec.args with
    | error e => simp [effIsPrint, prepErr]
    | ok args =>
      cases h3 : merge_env ex.render w.ambient step.env spec.env with
      | error e => simp [effIsPrint, prepErr]
      | ok env => simp [hdry, effIsPrint, prepErr]

lemma run_conf_dry (ex : Executor) (w : World) (step : Step) (spec : ConfSpec)
    (idx : Nat) (fs : FS) (hdry : ex.dry_run = true) :
    (run_conf ex w step spec idx fs).2.2 = fs
    ∧ (run_conf ex w step spec idx fs).2.1.all effIsPrint = true
    ∧ ((run_conf ex w step spec idx fs).1 = .ok () →
        ∃ i k s, Effect.printHeader i k s ∈ (run_conf ex w step spec idx fs).2.1)
    ∧ (∀ e, (run_conf ex w step spec idx fs).1 = .error e → prepErr e = true) := by
  unfold run_conf
  cases h1 : ex.render spec.dest with
  | error e => simp [effIsPrint, prepErr]
  | ok dest =>
    cases h2 : ex.render spec.template with
    | error e => simp [effIsPrint, prepErr]
    | ok content => simp [hdry, effIsPrint, prepErr]

lemma run_ssh_dry (ex : Executor) (w : World) (step : Step) (spec : SshSpec)
    (idx : Nat) (fs : FS) (hdry : ex.dry_run = true) :
    (run_ssh ex w step spec idx fs).2.2 = fs
    ∧ (run_ssh ex w step spec idx fs).2.1.all effIsPrint = true
    ∧ ((run_ssh ex w step spec idx fs).1 = .ok () →
        ∃ i k s, Effect.printHeader i k s ∈ (run_ssh ex w step spec idx fs).2.1)
    ∧ (∀ e, (run_ssh ex w step spec idx fs).1 = .error e → prepErr e = true) := by
  unfold run_ssh
  cases h1 : build_ssh_cmd ex.render spec with
  | error e => simp [effIsPrint, prepErr]
  | ok cmd => simp [hdry, effIsPrint, prepErr]

/-- Claim C3, amended: in preview mode no step changes the filesystem and
every recorded effect is a print (in particular no process spawn and no
file write); a step that completes with success has printed its header
unless its guard skipped it; and any failure in preview mode is a
pre-spawn preparation error (render failure, dispatch configuration
error, or shell-string split panic). -/
theorem dry_run_frame (ex : Executor) (w : World) (step : Step) (idx : Nat)
    (fs : FS) (hdry : ex.dry_run = true) :
    (run_step ex w step idx fs).2.2 = fs
    ∧ (run_step ex w step idx fs).2.1.all effIsPrint = true
    ∧ ((run_step ex w step idx fs).1 = .ok () →
        step.when = some false ∨
        ∃ i k s, Effect.printHeader i k s ∈ (run_step ex w step idx fs).2.1)
    ∧ (∀ e, (run_step ex w step idx fs).1 = .error e → prepErr e = true) := by
  have hskip : step.when = some false →
      run_step ex w step idx fs = (.ok (), [], fs) := by
    intro hw; simp [run_step, hw]
  by_cases hw : step.when = some false
  · rw [hskip hw]
    exact ⟨rfl, rfl, fun _ => Or.inl hw, fun e he => by cases he⟩
  · have hdisp := run_step_dispatch ex w step idx fs hw
    cases hsh : step.shell with
    | some s =>
      rw [hdisp.2.1 s hsh]
      obtain ⟨a, b, c, d⟩ := run_shell_dry ex w step s idx fs hdry
      exact ⟨a, b, fun h => Or.inr (c h), d⟩
    | none =>
      cases hex : step.exec with
      | some s =>
        rw [hdisp.2.2.1 s hsh hex]
        obtain ⟨a, b, c, d⟩ := run_exec_dry ex w step s idx fs hdry
        exact ⟨a, b, fun h => Or.inr (c h), d⟩
      | none =>
        cases hco : step.conf with
        | some s =>
          rw [hdisp.2.2.2.1 s hsh hex hco]
          obtain ⟨a, b, c, d⟩ := run_conf_dry ex w step s idx fs hdry
          exact ⟨a, b, fun h => Or.inr (c h), d⟩
        | none =>
          cases hss : step.ssh with
          | some s =>
            rw [hdisp.2.2.2.2 s hsh hex hco hss]
            obtain ⟨a, b, c, d⟩ := run_ssh_dry ex w step s idx fs hdry
            exact ⟨a, b, fun h => Or.inr (c h), d⟩
          | none =>
            rw [hdisp.1 hsh hex hco hss]
            refine ⟨rfl, rfl, fun h => ?_, fun e he => ?_⟩
            · cases h
            · cases he; rfl

/-- A shell step whose command template fails to render (the paired
render function rejects it, as tera does on a template syntax error). -/
def c3_step : Step :=
  { step0 with
    shell := some { command := "bad", env := [], cwd := none, shell := none } }

/-- Claim C3, counterexample: in preview mode a step whose command
template fails to render does not complete with success and prints no
header; the render error fails the step even though dry-run is set. -/
theorem dry_run_render_failure :
    (run_step dryFailExec w0 c3_step 0 fs0).1
      = .error (.render (.err "template"))
    ∧ (run_step dryFailExec w0 c3_step 0 fs0).2.1 = [] :=
  ⟨rfl, rfl⟩

/-- The conf specification of the preview-mode witness scenario. -/
def c3w_conf : ConfSpec :=
  { dest := "/tmp/a", template := "T", backup := false, mode := none }

/-- A conf step used as the successful preview-mode witness scenario. -/
def c3w_step : Step := { step0 with conf := some c3w_conf }

/-- Witness for the amended C3 at a concrete preview-mode run. -/
theorem dry_run_frame_witness :
    (run_step dryExec w0 c3w_step 0 fs0).2.2 = fs0
    ∧ (run_step dryExec w0 c3w_step 0 fs0).2.1.all effIsPrint = true
    ∧ (c3w_step.when = some false ∨
        ∃ i k s, Effect.printHeader i k s
          ∈ (run_step dryExec w0 c3w_step 0 fs0).2.1) := by
  obtain ⟨a, b, c, d⟩ := dry_run_frame dryExec w0 c3w_step 0 fs0 rfl
  exact ⟨a, b, c rfl⟩

end RustRunner
